import Mathlib

/-!
Shallow embedding of the inclusion-tracking and bundle-composition core of
`mev-share-client-rs`, together with theorems checking the natural-language
specification against the code.

Embedded source locations:
* `src/api/types/rpc/send_bundle.rs` — bundle data model (`Body`, `Inclusion`,
  `SendBundleParams`).
* `src/api/types/rpc/helpers.rs` — `BodyHashIterator` (explicit-stack hash
  flattening), `PendingBundle::inclusion`, `PendingTransaction::inclusion`.
* `src/helpers/provider.rs` — the `Waiter` impl (`wait_for_tx!` expansion,
  `wait_for_bundle`, `fetch_receipts`).
* `src/api/networks.rs` — `TryFrom<U256> for MevShareNetwork`.
* `src/client.rs` — `MevShareClient::new_with_chain_id`.
* `src/api/rpc_client.rs` — the atomic request-id counter of
  `MevShareRpcClient`.

Modelling conventions: transaction hashes (`TxHash`) are `Nat`; raw signed
transaction bytes (`Bytes`) are `List Nat`; `keccak256` is an external
collaborator and is a parameter of every definition that uses it; `U64`/`U256`
values are `Nat` (with the 2^64 overflow of `U256::as_u64` made explicit);
the `i32` request-id counter is a `Nat` bit pattern reduced mod 2^32 with an
explicit signed view.  Rust `Result`/`Option` become `Except`/`Option`;
a reached `unwrap()`/`expect()` on `None` becomes a distinguished `panic`
outcome, and the `unreachable!` hit when a finite modelled block subscription
runs dry becomes a distinguished `streamEnded` outcome.  Asynchronous
providers are modelled as finite traces: the answer of the initial fetch plus
the list of observed block headers, each paired with the answer the provider
gives to the fetch performed at that block.
-/

namespace MevShare

/-- Transaction hashes, `ethers::types::TxHash`, abstracted to `Nat`. -/
abbrev TxHash := Nat

/-- Raw signed transaction bytes, `ethers::types::Bytes`. -/
abbrev Bytes := List Nat

/-- `Body` from `send_bundle.rs` as used by `helpers.rs`: a bundle body
element is a transaction hash reference (`Body::Tx { hash }`), a raw signed
transaction (`Body::Signed { tx, can_revert }`), or a nested bundle
(`Body::Bundle(params)`).  Of the nested `SendBundleParams` only its `body`
vector is ever read by the hash-flattening iterator, so the nested element
carries exactly that list. -/
inductive Body where
  | tx (hash : TxHash)
  | signed (tx : Bytes) (canRevert : Bool)
  | bundle (body : List Body)

mutual

/-- Node count of a body element, used as termination measure for the
iterator's stack machine. -/
def bodyWeight : Body → Nat
  | .tx _ => 1
  | .signed _ _ => 1
  | .bundle inner => 1 + bodiesWeight inner

/-- Node count of a body list. -/
def bodiesWeight : List Body → Nat
  | [] => 0
  | b :: bs => bodyWeight b + bodiesWeight bs

end

/-- Total node count of the iterator's stack of sibling lists. -/
def stackWeight : List (List Body) → Nat
  | [] => 0
  | l :: rest => bodiesWeight l + stackWeight rest

/-- The full hash sequence emitted by `BodyHashIterator` (`helpers.rs`,
`impl Iterator for BodyHashIterator`), with the iterator's mutable
`stack: Vec<Iter<Body>>` made explicit: the head of the list is the top of
the stack (`stack.last_mut()`); an exhausted sibling iterator is popped; a
`Body::Tx` yields its stored hash; a `Body::Signed` yields
`keccak256(tx)` recomputed from the raw bytes; a `Body::Bundle` pushes its
body onto the stack before any subsequent sibling is visited. -/
def runStack (keccak : Bytes → TxHash) : List (List Body) → List TxHash
  | [] => []
  | [] :: rest => runStack keccak rest
  | (Body.tx h :: bs) :: rest => h :: runStack keccak (bs :: rest)
  | (Body.signed t _ :: bs) :: rest => keccak t :: runStack keccak (bs :: rest)
  | (Body.bundle inner :: bs) :: rest => runStack keccak (inner :: bs :: rest)
termination_by s => 2 * stackWeight s + s.length
decreasing_by
  all_goals simp [stackWeight, bodiesWeight, bodyWeight]
  all_goals omega

/-- `BodyHashIterator::new(bodies)` starts with `stack = vec![bodies.iter()]`;
`hashes` is the sequence the iterator then emits (`HashesIter::hashes`). -/
def hashes (keccak : Bytes → TxHash) (body : List Body) : List TxHash :=
  runStack keccak [body]

mutual

/-- Modelled from the spec: depth-first, left-to-right pre-order hash of one
body element — `TxRef` yields the stored hash, `SignedTx` yields the content
hash of the raw bytes, `NestedBundle` recurses into its body. -/
def flattenBody (keccak : Bytes → TxHash) : Body → List TxHash
  | .tx h => [h]
  | .signed t _ => [keccak t]
  | .bundle inner => flattenBodies keccak inner

/-- Modelled from the spec: pre-order concatenation over a body list. -/
def flattenBodies (keccak : Bytes → TxHash) : List Body → List TxHash
  | [] => []
  | b :: bs => flattenBody keccak b ++ flattenBodies keccak bs

end

/-- The stack machine emits, level by level, the pre-order flattening of each
stacked sibling list, concatenated top of stack first. -/
theorem runStack_eq_join (keccak : Bytes → TxHash) (s : List (List Body)) :
    runStack keccak s = (s.map (flattenBodies keccak)).flatten := by
  induction s using runStack.induct keccak <;>
    simp_all [runStack, flattenBodies, flattenBody]

theorem hashes_eq_flatten (keccak : Bytes → TxHash) (body : List Body) :
    hashes keccak body = flattenBodies keccak body := by
  simp [hashes, runStack_eq_join]

/-! ## Inclusion waiter (`src/helpers/provider.rs`) -/

/-- The fields of `ethers::types::Transaction` read by the waiter. -/
structure Transaction where
  blockNumber : Option Nat
deriving Repr, DecidableEq

/-- The fields of `ethers::types::TransactionReceipt` read by the waiter:
`block_number` and `status` are optional in the wire type and are read with
`unwrap()` in the source. -/
structure TransactionReceipt where
  blockNumber : Option Nat
  status : Option Nat
deriving Repr, DecidableEq

/-- The field of a block header (`ethers::types::Block`) read by the waiter. -/
structure BlockHeader where
  number : Option Nat
deriving Repr, DecidableEq

/-- Outcome of the `wait_for_tx!` macro body (`wait_for_tx` /
`wait_for_tx_receipt`).  `panic` marks a reached `unwrap()` on `None`;
`streamEnded` marks the trailing `unreachable!` reached when the modelled
finite block subscription runs dry. -/
inductive TxOutcome (α : Type) where
  | ok (item : α) (block : Nat)
  | timeout (hash : TxHash) (block : Nat)
  | providerError
  | panic
  | streamEnded
deriving Repr, DecidableEq

/-- A finite trace of one provider interaction for `wait_for_tx!`: the answer
to the fetch performed before subscribing, and — behind the possibly failing
`subscribe_blocks` — the observed block headers, each paired with the answer
to the fetch performed at that block.  `Except.error` is a provider error
propagated by `?`. -/
structure TxTrace (α : Type) where
  firstFetch : Except Unit (Option α)
  subscription : Except Unit (List (BlockHeader × Except Unit (Option α)))

/-- The block-subscription loop of `wait_for_tx!`: at each observed block,
re-fetch (`$provider.$get_tx($hash).await?`); on a hit return the item with
`block.number.unwrap()`; otherwise compute `block.number.unwrap()` and fail
with `TransactionTimeout` when it is `>= max_block`, else continue. -/
def waitForTxGo (hash maxBlock : Nat) :
    List (BlockHeader × Except Unit (Option α)) → TxOutcome α
  | [] => .streamEnded
  | (blk, fetch) :: rest =>
    match fetch with
    | .error _ => .providerError
    | .ok (some item) =>
      match blk.number with
      | some n => .ok item n
      | none => .panic
    | .ok none =>
      match blk.number with
      | none => .panic
      | some n =>
        if n ≥ maxBlock then .timeout hash n else waitForTxGo hash maxBlock rest

/-- The `wait_for_tx!` macro body, shared by `Waiter::wait_for_tx`
(`α = Transaction`, `blockOf = Transaction.blockNumber`) and
`Waiter::wait_for_tx_receipt` (`α = TransactionReceipt`).  On an immediate
hit it returns `(item, item.block_number.unwrap())` before ever subscribing;
the returned `Bool` records whether `subscribe_blocks` was called. -/
def waitForTx (blockOf : α → Option Nat) (hash maxBlock : Nat)
    (tr : TxTrace α) : TxOutcome α × Bool :=
  match tr.firstFetch with
  | .error _ => (.providerError, false)
  | .ok (some item) =>
    match blockOf item with
    | some b => (.ok item b, false)
    | none => (.panic, false)
  | .ok none =>
    match tr.subscription with
    | .error _ => (.providerError, true)
    | .ok blocks => (waitForTxGo hash maxBlock blocks, true)

/-- A provider's answer to `get_transaction_receipt` per hash at one point in
time. -/
abbrev ReceiptLookup := TxHash → Except Unit (Option TransactionReceipt)

/-- `try_join_all(hashes.iter().map(get_transaction_receipt))` followed by
`.flatten()`: any provider error propagates; otherwise the found receipts are
kept in hash order with the `None`s dropped. -/
def collectReceipts (lookup : ReceiptLookup) : List TxHash →
    Except Unit (List TransactionReceipt)
  | [] => .ok []
  | h :: hs =>
    match lookup h with
    | .error e => .error e
    | .ok r =>
      match collectReceipts lookup hs with
      | .error e => .error e
      | .ok rest => .ok (match r with | some rc => rc :: rest | none => rest)

/-- Outcome of `fetch_receipts`. -/
inductive FetchOutcome where
  | ok (receipts : List TransactionReceipt)
  | discard (receipts : List TransactionReceipt)
  | revert (receipts : List TransactionReceipt)
  | providerError
  | panic
deriving Repr, DecidableEq

/-- `fetch_receipts` (`provider.rs` 136–167): collect the found receipts;
empty → `Ok` (not landed yet); fewer than `hashes.len()` → `BundleDiscard`
with the found receipts; all found and
`receipts.iter().filter(|r| r.status.unwrap() != 1).count() > 0` →
`BundleRevert` with all receipts (the filter unwraps every status, so any
`None` status panics); otherwise `Ok` with all receipts. -/
def fetchReceipts (lookup : ReceiptLookup) (hashes : List TxHash) :
    FetchOutcome :=
  match collectReceipts lookup hashes with
  | .error _ => .providerError
  | .ok receipts =>
    if receipts.isEmpty then .ok receipts
    else if receipts.length < hashes.length then .discard receipts
    else if receipts.any (fun r => r.status.isNone) then .panic
    else if (receipts.filter (fun r => r.status ≠ some 1)).length > 0 then
      .revert receipts
    else .ok receipts

/-- Outcome of `wait_for_bundle`. -/
inductive BundleOutcome where
  | ok (receipts : List TransactionReceipt) (block : Nat)
  | timeout (txs : List TxHash) (block : Nat)
  | discard (receipts : List TransactionReceipt)
  | revert (receipts : List TransactionReceipt)
  | providerError
  | panic
  | streamEnded
deriving Repr, DecidableEq

/-- The `check_inclusion!` macro of `wait_for_bundle` (`provider.rs`
109–117): run `fetch_receipts` (its `Err` propagates via `?`, ending the
wait); when it returns a non-empty receipt list, return
`Ok((receipts, receipts.first().block_number.unwrap()))`; when the list is
empty fall through (`none`). -/
def checkInclusion (lookup : ReceiptLookup) (txs : List TxHash) :
    Option BundleOutcome :=
  match fetchReceipts lookup txs with
  | .providerError => some .providerError
  | .discard rs => some (.discard rs)
  | .revert rs => some (.revert rs)
  | .panic => some .panic
  | .ok rs =>
    match rs with
    | [] => none
    | r :: rest =>
      match r.blockNumber with
      | some b => some (.ok (r :: rest) b)
      | none => some .panic

/-- A finite trace of one provider interaction for `wait_for_bundle`: the
receipt view at the initial check, and — behind the possibly failing
`subscribe_blocks` — the observed block headers, each paired with the receipt
view at that block. -/
structure BundleTrace where
  initLookup : ReceiptLookup
  subscription : Except Unit (List (BlockHeader × ReceiptLookup))

/-- The block-subscription loop of `wait_for_bundle` (`provider.rs` 124–130):
at each observed block run `check_inclusion!` first, then
`if let Some(block) = block.number && block > max_block` fail with
`BundleTimeout(txs, block)` — a block with `number == None` is skipped, and
the bound is strict. -/
def waitForBundleGo (txs : List TxHash) (maxBlock : Nat) :
    List (BlockHeader × ReceiptLookup) → BundleOutcome
  | [] => .streamEnded
  | (blk, lk) :: rest =>
    match checkInclusion lk txs with
    | some out => out
    | none =>
      match blk.number with
      | some n =>
        if n > maxBlock then .timeout txs n
        else waitForBundleGo txs maxBlock rest
      | none => waitForBundleGo txs maxBlock rest

/-- `Waiter::wait_for_bundle` (`provider.rs` 102–133): one `check_inclusion!`
before subscribing, then the subscription loop. -/
def waitForBundle (txs : List TxHash) (maxBlock : Nat) (tr : BundleTrace) :
    BundleOutcome :=
  match checkInclusion tr.initLookup txs with
  | some out => out
  | none =>
    match tr.subscription with
    | .error _ => .providerError
    | .ok blocks => waitForBundleGo txs maxBlock blocks

/-! ## Pending wrappers (`src/api/types/rpc/helpers.rs`) -/

/-- `Inclusion` from `send_bundle.rs`: target `block` and optional
`max_block`. -/
structure Inclusion where
  block : Nat
  maxBlock : Option Nat
deriving Repr, DecidableEq

/-- The fields of `SendBundleParams` read by `PendingBundle::inclusion`:
`inclusion` and `body` (version/validity/privacy/metadata are never read
there). -/
structure SendBundleParams where
  inclusion : Inclusion
  body : List Body

/-- `PendingBundle::inclusion` (`helpers.rs` 40–51): flatten the body's
hashes, take `max_block.unwrap_or(inclusion.block)`, and run
`wait_for_bundle`. -/
def pendingBundleInclusion (keccak : Bytes → TxHash)
    (request : SendBundleParams) (tr : BundleTrace) : BundleOutcome :=
  waitForBundle (hashes keccak request.body)
    (request.inclusion.maxBlock.getD request.inclusion.block) tr

/-- `TX_WAIT_MAX_BLOCKS` (`helpers.rs` 58). -/
def TX_WAIT_MAX_BLOCKS : Nat := 25

/-- Outcome of `PendingTransaction::inclusion`. -/
inductive PendingTxOutcome where
  | ok (receipt : TransactionReceipt) (block : Nat)
  | timeout (hash : TxHash) (block : Nat)
  | revert (receipt : TransactionReceipt)
  | providerError
  | panic
  | streamEnded
deriving Repr, DecidableEq

/-- The status check after `wait_for_tx_receipt` returns (`helpers.rs`
105–107): a fetched receipt with `receipt.status.unwrap() != 1` turns into
`TransactionRevert(receipt)`, and the wait's own failures pass through. -/
def inclusionOutcome (res : TxOutcome TransactionReceipt) : PendingTxOutcome :=
  match res with
  | .timeout h b => .timeout h b
  | .providerError => .providerError
  | .panic => .panic
  | .streamEnded => .streamEnded
  | .ok receipt block =>
    match receipt.status with
    | none => .panic
    | some s => if s ≠ 1 then .revert receipt else .ok receipt block

/-- `PendingTransaction::inclusion` (`helpers.rs` 94–110): resolve
`max_block` (`self.max_block` or `get_block_number().await? +
TX_WAIT_MAX_BLOCKS`), run `wait_for_tx_receipt`, then apply the
status check. -/
def pendingTransactionInclusion (hash : TxHash) (maxBlock : Option Nat)
    (currentBlock : Except Unit Nat) (tr : TxTrace TransactionReceipt) :
    PendingTxOutcome :=
  match (match maxBlock with
         | some b => Except.ok b
         | none => currentBlock.map (· + TX_WAIT_MAX_BLOCKS)) with
  | .error _ => .providerError
  | .ok mb =>
    inclusionOutcome (waitForTx TransactionReceipt.blockNumber hash mb tr).1

/-! ## Network selection (`src/api/networks.rs`, `src/client.rs`) -/

/-- `MevShareNetwork`: a supported network with its fixed base URLs. -/
structure MevShareNetwork where
  chainName : String
  streamUrl : String
  apiUrl : String
deriving Repr, DecidableEq

/-- The `MAINNET` constant. -/
def MAINNET : MevShareNetwork :=
  { chainName := "mainnet"
    streamUrl := "https://mev-share.flashbots.net"
    apiUrl := "https://relay.flashbots.net" }

/-- The `GOERLI` constant. -/
def GOERLI : MevShareNetwork :=
  { chainName := "goerli"
    streamUrl := "https://mev-share-goerli.flashbots.net"
    apiUrl := "https://relay-goerli.flashbots.net" }

/-- Result of `MevShareNetwork::try_from(chain: U256)` /
`MevShareClient::new_with_chain_id`.  `panic` marks the overflow assertion of
`U256::as_u64`. -/
inductive NetworkOutcome where
  | ok (network : MevShareNetwork)
  | unsupported (chain : Nat)
  | panic
deriving Repr, DecidableEq

/-- `U256::as_u64` (the `uint` crate): the low 64 bits, with an overflow
assertion that panics (modelled `none`) when the value does not fit in 64
bits. -/
def asU64 (chain : Nat) : Option Nat :=
  if chain < 2 ^ 64 then some chain else none

/-- `TryFrom<U256> for MevShareNetwork` (`networks.rs` 28–39):
`match chain.as_u64() { 1 => MAINNET, 5 => GOERLI, _ =>
Err(UnsupportedNetwork(chain)) }`. -/
def tryFromU256 (chain : Nat) : NetworkOutcome :=
  match asU64 chain with
  | none => .panic
  | some v =>
    if v = 1 then .ok MAINNET
    else if v = 5 then .ok GOERLI
    else .unsupported chain

/-- `MevShareClient::new_with_chain_id` (`client.rs` 55–69): propagate
`MevShareNetwork::try_from(chain_id)?`; on success the client is built (we
keep the chosen network as the observable part). -/
def newWithChainId (chainId : Nat) : NetworkOutcome :=
  match tryFromU256 chainId with
  | .ok network => .ok network
  | .unsupported c => .unsupported c
  | .panic => .panic

/-! ## Request-id counter (`src/api/rpc_client.rs`) -/

/-- The `AtomicI32` request-id counter holds a 32-bit pattern. -/
def WRAP32 : Nat := 2 ^ 32

/-- The `i32` signed view of a 32-bit pattern, as serialized in the JSON-RPC
`id` field. -/
def toI32 (n : Nat) : Int :=
  if n % WRAP32 < 2 ^ 31 then (n % WRAP32 : Int) else (n % WRAP32 : Int) - WRAP32

/-- `MevShareRpcClient::new_request_id` seeds the counter with
`nanos % 1_000_000`; a seed is any such value. -/
def validSeed (seed : Nat) : Prop := seed < 1000000

/-- Counter state after `n` atomic `fetch_add(1, Relaxed)` steps from the
seed.  Atomicity of `fetch_add` makes every concurrent execution equivalent
to some linear order of these indivisible steps, so position in that order
fully determines the state. -/
def counterState (seed : Nat) : Nat → Nat
  | 0 => seed % WRAP32
  | n + 1 => (counterState seed n + 1) % WRAP32

/-- The id obtained by the `post()` call whose `fetch_add` is the `n`-th
step (0-based) in the linearization: `fetch_add` returns the previous
value. -/
def requestId (seed n : Nat) : Nat := counterState seed n

theorem counterState_eq (seed n : Nat) :
    counterState seed n = (seed + n) % WRAP32 := by
  induction n with
  | zero => simp [counterState]
  | succ n ih =>
    rw [counterState, ih, Nat.mod_add_mod, Nat.add_assoc]

/-! ## Concrete provider behaviours used to evaluate the model -/

/-- A receipt view with no receipt for any hash. -/
def noReceipts : ReceiptLookup := fun _ => .ok none

/-- A successful receipt landed in block 11. -/
def receiptOk11 : TransactionReceipt := { blockNumber := some 11, status := some 1 }

/-- A receipt view with receipts for hashes 1 and 2 only. -/
def partialReceipts : ReceiptLookup := fun h =>
  if h = 1 then .ok (some receiptOk11)
  else if h = 2 then .ok (some receiptOk11)
  else .ok none

/-! ## Claim theorems -/

/-- C3: for every bundle body, the hash-flattening iterator yields the leaf
transaction hashes in depth-first, left-to-right pre-order — `Tx` yields the
stored hash, `Signed` yields the recomputed content hash of the raw bytes,
`Bundle` is recursed into before subsequent siblings — and on the body
`[Signed(a), Signed(b), TxRef(h), NestedBundle([Signed(c), Signed(d),
TxRef(h2)]), Signed(e)]` it yields exactly
`[hash(a), hash(b), h, hash(c), hash(d), h2, hash(e)]`, nothing skipped or
deduplicated. -/
theorem C3_hash_flattening_preorder :
    (∀ (keccak : Bytes → TxHash) (body : List Body),
      hashes keccak body = flattenBodies keccak body) ∧
    (∀ (keccak : Bytes → TxHash) (a b c d e : Bytes) (h h2 : TxHash)
      (ra rb rc rd re : Bool),
      hashes keccak
        [Body.signed a ra, Body.signed b rb, Body.tx h,
         Body.bundle [Body.signed c rc, Body.signed d rd, Body.tx h2],
         Body.signed e re]
        = [keccak a, keccak b, h, keccak c, keccak d, h2, keccak e]) := by
  refine ⟨hashes_eq_flatten, ?_⟩
  intro keccak a b c d e h h2 ra rb rc rd re
  simp [hashes_eq_flatten, flattenBodies, flattenBody]

/-- The shape of `fetch_receipts` once the concurrent lookups succeeded. -/
theorem fetchReceipts_of_collect {lookup : ReceiptLookup} {hs : List TxHash}
    {rs : List TransactionReceipt} (hc : collectReceipts lookup hs = .ok rs) :
    fetchReceipts lookup hs =
      (if rs.isEmpty then .ok rs
       else if rs.length < hs.length then .discard rs
       else if rs.any (fun r => r.status.isNone) then .panic
       else if (rs.filter (fun r => r.status ≠ some 1)).length > 0 then
         .revert rs
       else .ok rs) := by
  simp [fetchReceipts, hc]

/-- C4: classification of a single receipt fetch over the flattened hashes:
zero receipts found → `Ok` (not landed yet, keep waiting); some but not all →
`BundleDiscard` with exactly the found receipts; all found with at least one
non-success status → `BundleRevert` with all receipts; all found, none
reverted → success. -/
theorem C4_fetch_receipts_classification (lookup : ReceiptLookup)
    (hs : List TxHash) (rs : List TransactionReceipt)
    (hc : collectReceipts lookup hs = .ok rs) :
    (rs = [] → fetchReceipts lookup hs = .ok []) ∧
    (rs ≠ [] → rs.length < hs.length → fetchReceipts lookup hs = .discard rs) ∧
    (rs ≠ [] → rs.length = hs.length → (∀ r ∈ rs, r.status ≠ none) →
      (∃ r ∈ rs, r.status ≠ some 1) → fetchReceipts lookup hs = .revert rs) ∧
    (rs ≠ [] → rs.length = hs.length → (∀ r ∈ rs, r.status = some 1) →
      fetchReceipts lookup hs = .ok rs) := by
  refine ⟨?_, ?_, ?_, ?_⟩
  · rintro rfl
    simp [fetchReceipts_of_collect hc]
  · intro hne hlt
    rw [fetchReceipts_of_collect hc]
    simp [List.isEmpty_iff, hne, hlt]
  · intro hne hlen hstat hex
    rw [fetchReceipts_of_collect hc]
    have hnotlt : ¬ rs.length < hs.length := by omega
    have hany : rs.any (fun r => r.status.isNone) = false := by
      simp only [List.any_eq_false]
      intro r hr
      simpa [Option.isNone_iff_eq_none] using hstat r hr
    obtain ⟨r, hr, hrne⟩ := hex
    have hmem : r ∈ rs.filter (fun r => r.status ≠ some 1) :=
      List.mem_filter.mpr ⟨hr, by simp [hrne]⟩
    have hpos : 0 < (rs.filter (fun r => r.status ≠ some 1)).length :=
      List.length_pos_of_mem hmem
    simp only [List.isEmpty_iff, hne, if_false, hnotlt, hany,
      Bool.false_eq_true, gt_iff_lt, hpos, if_true]
  · intro hne hlen hstat
    rw [fetchReceipts_of_collect hc]
    have hnotlt : ¬ rs.length < hs.length := by omega
    have hany : rs.any (fun r => r.status.isNone) = false := by
      simp only [List.any_eq_false]
      intro r hr
      simp [hstat r hr]
    have hfil : rs.filter (fun r => r.status ≠ some 1) = [] := by
      rw [List.filter_eq_nil_iff]
      intro r hr
      simp [hstat r hr]
    simp only [List.isEmpty_iff, hne, if_false, hnotlt, hany,
      Bool.false_eq_true, gt_iff_lt, hfil, List.length_nil,
      Nat.lt_irrefl, if_true, if_false]

/-- A receipt view where all three hashes landed and exactly the second
reverted. -/
def threeLandedOneFailing : ReceiptLookup := fun h =>
  if h = 1 then .ok (some ⟨some 4, some 1⟩)
  else if h = 2 then .ok (some ⟨some 4, some 0⟩)
  else .ok (some ⟨some 4, some 1⟩)

/-- Witness for C4: three landed receipts with exactly one failing status are
classified `BundleRevert` carrying all three. -/
theorem C4_fetch_receipts_classification_witness :
    fetchReceipts threeLandedOneFailing [1, 2, 3]
      = .revert [⟨some 4, some 1⟩, ⟨some 4, some 0⟩, ⟨some 4, some 1⟩] :=
  (C4_fetch_receipts_classification threeLandedOneFailing [1, 2, 3]
        [⟨some 4, some 1⟩, ⟨some 4, some 0⟩, ⟨some 4, some 1⟩]
        rfl).2.2.1
    (by decide) rfl (by decide) (by decide)

/-- C5: whenever the single-transaction inclusion wait finds a receipt whose
status is not the success value 1, `PendingTransaction::inclusion` fails with
`TransactionRevert` carrying that receipt. -/
theorem C5_pending_tx_revert (hash : TxHash) (maxBlock : Option Nat)
    (currentBlock : Except Unit Nat) (tr : TxTrace TransactionReceipt)
    (mb : Nat) (receipt : TransactionReceipt) (block s : Nat)
    (hmb : (match maxBlock with
            | some b => Except.ok b
            | none => currentBlock.map (· + TX_WAIT_MAX_BLOCKS)) = Except.ok mb)
    (hw : (waitForTx TransactionReceipt.blockNumber hash mb tr).1
            = .ok receipt block)
    (hs : receipt.status = some s) (hne : s ≠ 1) :
    pendingTransactionInclusion hash maxBlock currentBlock tr
      = .revert receipt := by
  simp [pendingTransactionInclusion, inclusionOutcome, hmb, hw, hs, hne]

/-- Witness for C5: a receipt found with status 0 makes the wait fail with
`TransactionRevert` carrying it. -/
theorem C5_pending_tx_revert_witness :
    pendingTransactionInclusion 1 (some 10) (.ok 0)
      ⟨.ok (some ⟨some 7, some 0⟩), .ok []⟩ = .revert ⟨some 7, some 0⟩ :=
  C5_pending_tx_revert 1 (some 10) (.ok 0) _ 10 ⟨some 7, some 0⟩ 7 0
    rfl rfl rfl (by decide)

/-- C6: when the provider reports the item on the very first poll,
`wait_for_tx!` returns it with its own `block_number` immediately, without
ever calling `subscribe_blocks`, for every `max_block` — including one at or
below the included block. -/
theorem C6_immediate_hit_no_subscription {α : Type} (blockOf : α → Option Nat)
    (hash maxBlock : Nat) (tr : TxTrace α) (item : α) (b : Nat)
    (hf : tr.firstFetch = .ok (some item)) (hb : blockOf item = some b) :
    waitForTx blockOf hash maxBlock tr = (.ok item b, false) := by
  simp [waitForTx, hf, hb]

/-- Witness for C6: a transaction already included in block 30 resolves
immediately even though `max_block` is 5, and the subscription flag stays
`false`. -/
theorem C6_immediate_hit_no_subscription_witness :
    waitForTx Transaction.blockNumber 1 5 ⟨.ok (some ⟨some 30⟩), .ok []⟩
      = (.ok ⟨some 30⟩ 30, false) :=
  C6_immediate_hit_no_subscription Transaction.blockNumber 1 5
    ⟨.ok (some ⟨some 30⟩), .ok []⟩ ⟨some 30⟩ 30 rfl rfl

/-- `check_inclusion!` never produces a timeout itself. -/
theorem checkInclusion_ne_timeout (lookup : ReceiptLookup) (txs l : List TxHash)
    (n : Nat) : checkInclusion lookup txs ≠ some (.timeout l n) := by
  unfold checkInclusion
  split
  all_goals try simp
  split
  · simp
  · split <;> simp

/-- A `BundleTimeout` out of the subscription loop forces every consumed
poll — including the deciding one — to have observed zero receipts, and the
deciding block to lie strictly above `max_block`. -/
theorem waitForBundleGo_timeout_inv (txs : List TxHash) (maxBlock : Nat)
    (blocks : List (BlockHeader × ReceiptLookup)) (l : List TxHash) (n : Nat)
    (h : waitForBundleGo txs maxBlock blocks = .timeout l n) :
    l = txs ∧ maxBlock < n ∧
    ∃ pre blk lk post, blocks = pre ++ (blk, lk) :: post ∧
      blk.number = some n ∧
      (∀ p ∈ pre, checkInclusion p.2 txs = none) ∧
      checkInclusion lk txs = none := by
  induction blocks with
  | nil => simp [waitForBundleGo] at h
  | cons head rest ih =>
    obtain ⟨blk, lk⟩ := head
    cases hchk : checkInclusion lk txs with
    | some out =>
      simp only [waitForBundleGo, hchk] at h
      exact absurd (hchk.trans (congrArg some h))
        (checkInclusion_ne_timeout lk txs l n)
    | none =>
      simp only [waitForBundleGo, hchk] at h
      cases hn : blk.number with
      | none =>
        simp only [hn] at h
        obtain ⟨hl, hlt, pre, blk', lk', post, heq, hnum, hpre, hlast⟩ := ih h
        refine ⟨hl, hlt, (blk, lk) :: pre, blk', lk', post, by simp [heq],
          hnum, ?_, hlast⟩
        intro p hp
        rcases List.mem_cons.mp hp with hp | hp
        · rw [hp]; exact hchk
        · exact hpre p hp
      | some m =>
        simp only [hn] at h
        by_cases hgt : m > maxBlock
        · rw [if_pos hgt] at h
          injection h with h1 h2
          subst h1; subst h2
          exact ⟨rfl, hgt, [], blk, lk, rest, rfl, hn, by simp, hchk⟩
        · rw [if_neg hgt] at h
          obtain ⟨hl, hlt, pre, blk', lk', post, heq, hnum, hpre, hlast⟩ := ih h
          refine ⟨hl, hlt, (blk, lk) :: pre, blk', lk', post, by simp [heq],
            hnum, ?_, hlast⟩
          intro p hp
          rcases List.mem_cons.mp hp with hp | hp
          · rw [hp]; exact hchk
          · exact hpre p hp

/-- Counterexample to C1: three flattened hashes of which only two ever get
receipts, observed at a block (11) already past `max_block` (10) — the wait
resolves to `BundleDiscard`, not `BundleTimeout`. -/
theorem C1_counterexample :
    waitForBundle [1, 2, 3] 10
        ⟨noReceipts, .ok [(⟨some 11⟩, partialReceipts)]⟩
      = .discard [receiptOk11, receiptOk11] ∧
    waitForBundle [1, 2, 3] 10
        ⟨noReceipts, .ok [(⟨some 11⟩, partialReceipts)]⟩
      ≠ .timeout [1, 2, 3] 11 :=
  ⟨rfl, by decide⟩

/-- C1 (amended): a poll that observes a partial receipt set resolves the
wait to `BundleDiscard` at once — even at a block past `max_block` — because
`check_inclusion!` runs before the timeout test; `BundleTimeout` happens only
when the initial poll and every consumed subscription poll up to and
including the deciding block (which lies strictly above `max_block`)
observed zero receipts. -/
theorem C1_discard_wins_over_timeout :
    (∀ (txs : List TxHash) (maxBlock : Nat) (blk : BlockHeader)
       (lk : ReceiptLookup) (rest : List (BlockHeader × ReceiptLookup))
       (rs : List TransactionReceipt),
       fetchReceipts lk txs = .discard rs →
       waitForBundleGo txs maxBlock ((blk, lk) :: rest) = .discard rs) ∧
    (∀ (txs : List TxHash) (maxBlock : Nat) (tr : BundleTrace)
       (l : List TxHash) (n : Nat),
       waitForBundle txs maxBlock tr = .timeout l n →
       l = txs ∧ maxBlock < n ∧ checkInclusion tr.initLookup txs = none ∧
       ∃ blocks pre blk lk post, tr.subscription = .ok blocks ∧
         blocks = pre ++ (blk, lk) :: post ∧ blk.number = some n ∧
         (∀ p ∈ pre, checkInclusion p.2 txs = none) ∧
         checkInclusion lk txs = none) := by
  constructor
  · intro txs maxBlock blk lk rest rs hf
    simp [waitForBundleGo, checkInclusion, hf]
  · intro txs maxBlock tr l n h
    cases hchk : checkInclusion tr.initLookup txs with
    | some out =>
      simp only [waitForBundle, hchk] at h
      exact absurd (hchk.trans (congrArg some h))
        (checkInclusion_ne_timeout tr.initLookup txs l n)
    | none =>
      simp only [waitForBundle, hchk] at h
      cases hsub : tr.subscription with
      | error e => simp [hsub] at h
      | ok blocks =>
        rw [hsub] at h
        obtain ⟨hl, hlt, pre, blk, lk, post, heq, hnum, hpre, hlast⟩ :=
          waitForBundleGo_timeout_inv txs maxBlock blocks l n h
        exact ⟨hl, hlt, rfl, blocks, pre, blk, lk, post, rfl, heq, hnum,
          hpre, hlast⟩

/-- Witness for C1 (amended): a poll finding two of three receipts at block
11, past `max_block = 10`, classifies as `BundleDiscard`. -/
theorem C1_discard_wins_over_timeout_witness :
    waitForBundleGo [1, 2, 3] 10 [(⟨some 11⟩, partialReceipts)]
      = .discard [receiptOk11, receiptOk11] :=
  C1_discard_wins_over_timeout.1 [1, 2, 3] 10 ⟨some 11⟩ partialReceipts []
    [receiptOk11, receiptOk11] rfl

/-- Counterexample to C2: a block numbered exactly `max_block = 10` with
zero receipts does not trigger `BundleTimeout`; the loop continues (here the
finite modelled stream then runs dry). -/
theorem C2_counterexample :
    waitForBundle [1] 10 ⟨noReceipts, .ok [(⟨some 10⟩, noReceipts)]⟩
      = .streamEnded ∧
    waitForBundle [1] 10 ⟨noReceipts, .ok [(⟨some 10⟩, noReceipts)]⟩
      ≠ .timeout [1] 10 :=
  ⟨rfl, by decide⟩

/-- C2 (amended): the bundle wait's bound is exclusive, not inclusive: with
zero receipts found, a newly observed block numbered strictly above
`max_block` fails the wait with `BundleTimeout(txs, block)`, while a block
numbered at or below `max_block` (in particular the block *at* `max_block`)
lets the wait continue. -/
theorem C2_strict_bound (txs : List TxHash) (maxBlock : Nat)
    (blk : BlockHeader) (lk : ReceiptLookup)
    (rest : List (BlockHeader × ReceiptLookup)) (n : Nat)
    (hchk : checkInclusion lk txs = none) (hn : blk.number = some n) :
    (maxBlock < n →
       waitForBundleGo txs maxBlock ((blk, lk) :: rest) = .timeout txs n) ∧
    (n ≤ maxBlock →
       waitForBundleGo txs maxBlock ((blk, lk) :: rest)
         = waitForBundleGo txs maxBlock rest) := by
  constructor
  · intro hlt
    simp [waitForBundleGo, hchk, hn, hlt]
  · intro hle
    simp only [waitForBundleGo, hchk, hn]
    rw [if_neg (by omega)]

/-- Witness for C2 (amended): with zero receipts, block 10 at
`max_block = 10` continues the wait, and block 11 times it out. -/
theorem C2_strict_bound_witness :
    waitForBundleGo [1] 10 [(⟨some 10⟩, noReceipts), (⟨some 11⟩, noReceipts)]
        = waitForBundleGo [1] 10 [(⟨some 11⟩, noReceipts)] ∧
    waitForBundleGo [1] 10 [(⟨some 11⟩, noReceipts)] = .timeout [1] 11 :=
  ⟨(C2_strict_bound [1] 10 ⟨some 10⟩ noReceipts [(⟨some 11⟩, noReceipts)] 10
      rfl rfl).2 (by decide),
   (C2_strict_bound [1] 10 ⟨some 11⟩ noReceipts [] 11 rfl rfl).1 (by decide)⟩

/-- Counterexample to C7: a chain-id that does not fit in 64 bits hits the
overflow assertion of `U256::as_u64` inside `try_from`, so client
construction panics instead of returning `UnsupportedNetwork`. -/
theorem C7_counterexample :
    newWithChainId (2 ^ 64) = .panic ∧
    newWithChainId (2 ^ 64) ≠ .unsupported (2 ^ 64) :=
  ⟨by decide, by decide⟩

/-- C7 (amended): an unsupported chain-id representable in 64 bits is
rejected at construction with `UnsupportedNetwork` carrying the chain-id
(mainnet = 1 and goerli = 5 succeed), but a chain-id of 64 bits or more
panics in `U256::as_u64` instead of returning the typed error. -/
theorem C7_unsupported_network :
    (∀ chain : Nat, chain < 2 ^ 64 → chain ≠ 1 → chain ≠ 5 →
       newWithChainId chain = .unsupported chain) ∧
    (∀ chain : Nat, 2 ^ 64 ≤ chain → chain < 2 ^ 256 →
       newWithChainId chain = .panic) ∧
    newWithChainId 1 = .ok MAINNET ∧ newWithChainId 5 = .ok GOERLI := by
  refine ⟨?_, ?_, by decide, by decide⟩
  · intro chain hlt h1 h5
    have hlt' : chain < 18446744073709551616 := by simpa using hlt
    simp [newWithChainId, tryFromU256, asU64, hlt', h1, h5]
  · intro chain hge _
    have hge' : ¬ chain < 18446744073709551616 := by
      simpa using Nat.not_lt.mpr hge
    simp [newWithChainId, tryFromU256, asU64, hge']

/-- Witness for C7 (amended): chain-id 7 is rejected with
`UnsupportedNetwork(7)`. -/
theorem C7_unsupported_network_witness :
    newWithChainId 7 = .unsupported 7 :=
  C7_unsupported_network.1 7 (by decide) (by decide) (by decide)

/-- `WRAP32` as a numeral, for arithmetic automation. -/
theorem WRAP32_eq : WRAP32 = 4294967296 := by norm_num [WRAP32]

/-- Counterexample to C8: the id counter is a wrapping `AtomicI32`, so the
run that starts at the (reachable) seed 0 and issues its 2^31-th and
(2^31+1)-th requests gets the successive ids `i32::MAX` and `i32::MIN` —
not strictly increasing. -/
theorem C8_counterexample :
    validSeed 0 ∧
    toI32 (requestId 0 (2 ^ 31 - 1)) = 2 ^ 31 - 1 ∧
    toI32 (requestId 0 (2 ^ 31)) = -(2 ^ 31) ∧
    ¬ toI32 (requestId 0 (2 ^ 31 - 1)) < toI32 (requestId 0 (2 ^ 31)) := by
  refine ⟨by norm_num [validSeed], ?_, ?_, ?_⟩ <;>
    · simp only [requestId, counterState_eq]
      decide

/-- C8 (amended): the `fetch_add(1, Relaxed)` counter is atomic — in every
linearization of concurrent `post()` calls, two calls at distinct positions
(fewer than 2^32 ids issued in total) receive distinct request ids, with no
lost updates — and successive ids are strictly increasing except at the
single point where the 32-bit counter wraps from `i32::MAX` to
`i32::MIN`. -/
theorem C8_distinct_request_ids :
    (∀ seed i j : Nat, i < WRAP32 → j < WRAP32 → i ≠ j →
       requestId seed i ≠ requestId seed j) ∧
    (∀ seed n : Nat,
       toI32 (requestId seed n) < toI32 (requestId seed (n + 1)) ∨
       requestId seed n = 2 ^ 31 - 1) := by
  constructor
  · intro seed i j hi hj hne
    simp only [requestId, counterState_eq, WRAP32_eq] at *
    omega
  · intro seed n
    simp only [requestId, counterState_eq, toI32, WRAP32_eq]
    split_ifs <;> omega

/-- Witness for C8 (amended): two concurrent `post()` calls linearized at
positions 0 and 1 from seed 42 get distinct ids. -/
theorem C8_distinct_request_ids_witness :
    requestId 42 0 ≠ requestId 42 1 :=
  C8_distinct_request_ids.1 42 0 1 (by decide) (by decide) (by decide)

/-- Well-formedness of a receipt view: every receipt it reports carries a
block number and a status. -/
def wfLookup (lookup : ReceiptLookup) : Prop :=
  ∀ h r, lookup h = .ok (some r) → r.blockNumber ≠ none ∧ r.status ≠ none

/-- Well-formedness of one receipt: block number and status present. -/
def wfReceiptView (r : TransactionReceipt) : Prop :=
  r.blockNumber ≠ none ∧ r.status ≠ none

/-- The subscription loop of `wait_for_tx!` only panics through
`block.number.unwrap()`: with every observed header numbered, no panic. -/
theorem waitForTxGo_no_panic {α : Type} (hash maxBlock : Nat)
    (blocks : List (BlockHeader × Except Unit (Option α)))
    (hwf : ∀ p ∈ blocks, p.1.number ≠ none) :
    waitForTxGo hash maxBlock blocks ≠ .panic := by
  induction blocks with
  | nil => simp [waitForTxGo]
  | cons head rest ih =>
    obtain ⟨blk, fetch⟩ := head
    have hblk : blk.number ≠ none := (hwf (blk, fetch) (by simp))
    obtain ⟨n, hn⟩ := Option.ne_none_iff_exists'.mp hblk
    cases fetch with
    | error e => simp [waitForTxGo]
    | ok o =>
      cases o with
      | some item => simp [waitForTxGo, hn]
      | none =>
        simp only [waitForTxGo, hn]
        split_ifs with hge
        · simp
        · exact ih (fun p hp => hwf p (List.mem_cons_of_mem _ hp))

/-- `wait_for_tx!` does not reach an `unwrap()` on `None` when every item it
can fetch has a block number and every header is numbered. -/
theorem waitForTx_no_panic {α : Type} (blockOf : α → Option Nat)
    (hash maxBlock : Nat) (tr : TxTrace α)
    (hfirst : ∀ item, tr.firstFetch = Except.ok (some item) →
      blockOf item ≠ none)
    (hblocks : ∀ blocks, tr.subscription = Except.ok blocks →
      ∀ p ∈ blocks, p.1.number ≠ none) :
    (waitForTx blockOf hash maxBlock tr).1 ≠ .panic := by
  unfold waitForTx
  cases hf : tr.firstFetch with
  | error e => simp
  | ok o =>
    cases o with
    | some item =>
      obtain ⟨b, hb⟩ := Option.ne_none_iff_exists'.mp (hfirst item hf)
      simp [hb]
    | none =>
      cases hsub : tr.subscription with
      | error e => simp
      | ok blocks =>
        simpa using waitForTxGo_no_panic hash maxBlock blocks
          (hblocks blocks hsub)

/-- Any item returned by the subscription loop of `wait_for_tx!` was fetched
at one of the observed blocks. -/
theorem waitForTxGo_ok_src {α : Type} (hash maxBlock : Nat)
    (blocks : List (BlockHeader × Except Unit (Option α))) (item : α)
    (b : Nat) (h : waitForTxGo hash maxBlock blocks = .ok item b) :
    ∃ p ∈ blocks, p.2 = .ok (some item) := by
  induction blocks with
  | nil => simp [waitForTxGo] at h
  | cons head rest ih =>
    obtain ⟨blk, fetch⟩ := head
    cases fetch with
    | error e => simp [waitForTxGo] at h
    | ok o =>
      cases o with
      | some it =>
        cases hn : blk.number with
        | some n =>
          simp only [waitForTxGo, hn, TxOutcome.ok.injEq] at h
          exact ⟨(blk, .ok (some it)), by simp, by rw [h.1]⟩
        | none => simp [waitForTxGo, hn] at h
      | none =>
        cases hn : blk.number with
        | none => simp [waitForTxGo, hn] at h
        | some n =>
          simp only [waitForTxGo, hn] at h
          split_ifs at h
          obtain ⟨p, hp, hpf⟩ := ih h
          exact ⟨p, List.mem_cons_of_mem _ hp, hpf⟩

/-- Any item returned by `wait_for_tx!` came from the initial fetch or from
a fetch at one of the observed blocks. -/
theorem waitForTx_ok_src {α : Type} (blockOf : α → Option Nat)
    (hash maxBlock : Nat) (tr : TxTrace α) (item : α) (b : Nat)
    (h : (waitForTx blockOf hash maxBlock tr).1 = .ok item b) :
    tr.firstFetch = .ok (some item) ∨
    ∃ blocks p, tr.subscription = .ok blocks ∧ p ∈ blocks ∧
      p.2 = .ok (some item) := by
  unfold waitForTx at h
  cases hf : tr.firstFetch with
  | error e => rw [hf] at h; simp at h
  | ok o =>
    rw [hf] at h
    cases o with
    | some it =>
      cases hb : blockOf it with
      | some b' =>
        simp only [hb, TxOutcome.ok.injEq] at h
        exact Or.inl (by rw [← h.1])
      | none => simp [hb] at h
    | none =>
      cases hsub : tr.subscription with
      | error e => rw [hsub] at h; simp at h
      | ok blocks =>
        rw [hsub] at h
        simp only at h
        obtain ⟨p, hp, hpf⟩ := waitForTxGo_ok_src hash maxBlock blocks item b h
        exact Or.inr ⟨blocks, p, rfl, hp, hpf⟩

/-- Every receipt collected by the concurrent fetch was reported by the
lookup. -/
theorem collectReceipts_mem (lookup : ReceiptLookup) (hs : List TxHash)
    (rs : List TransactionReceipt) (hc : collectReceipts lookup hs = .ok rs) :
    ∀ r ∈ rs, ∃ h, lookup h = .ok (some r) := by
  induction hs generalizing rs with
  | nil =>
    simp only [collectReceipts, Except.ok.injEq] at hc
    subst hc; simp
  | cons h hs ih =>
    intro r hr
    rw [collectReceipts] at hc
    cases hl : lookup h with
    | error e => rw [hl] at hc; simp at hc
    | ok o =>
      rw [hl] at hc
      cases hrest : collectReceipts lookup hs with
      | error e => rw [hrest] at hc; simp at hc
      | ok rest =>
        rw [hrest] at hc
        cases o with
        | some rc =>
          simp only [Except.ok.injEq] at hc
          subst hc
          rcases List.mem_cons.mp hr with hr | hr
          · exact ⟨h, by rw [hr]; exact hl⟩
          · exact ih rest hrest r hr
        | none =>
          simp only [Except.ok.injEq] at hc
          subst hc
          exact ih rest hrest r hr

/-- `fetch_receipts` only panics through `status.unwrap()`: with every
reported receipt carrying a status, no panic. -/
theorem fetchReceipts_no_panic (lookup : ReceiptLookup) (hs : List TxHash)
    (hst : ∀ h r, lookup h = .ok (some r) → r.status ≠ none) :
    fetchReceipts lookup hs ≠ .panic := by
  cases hc : collectReceipts lookup hs with
  | error e => simp [fetchReceipts, hc]
  | ok rs =>
    rw [fetchReceipts_of_collect hc]
    have hany : rs.any (fun r => r.status.isNone) = false := by
      simp only [List.any_eq_false]
      intro r hr
      obtain ⟨h, hlk⟩ := collectReceipts_mem lookup hs rs hc r hr
      simpa [Option.isNone_iff_eq_none] using hst h r hlk
    split_ifs with h1 h2 h3 h4 <;> simp_all

/-- If `fetch_receipts` returns `Ok`, the list is exactly the collected
one. -/
theorem fetchReceipts_ok_collect (lookup : ReceiptLookup) (hs : List TxHash)
    (rs : List TransactionReceipt) (h : fetchReceipts lookup hs = .ok rs) :
    collectReceipts lookup hs = .ok rs := by
  cases hc : collectReceipts lookup hs with
  | error e => simp [fetchReceipts, hc] at h
  | ok rs' =>
    rw [fetchReceipts_of_collect hc] at h
    split_ifs at h <;> simp_all

/-- `check_inclusion!` does not panic over a well-formed receipt view. -/
theorem checkInclusion_no_panic (lookup : ReceiptLookup) (txs : List TxHash)
    (hwf : wfLookup lookup) : checkInclusion lookup txs ≠ some .panic := by
  unfold checkInclusion
  cases hf : fetchReceipts lookup txs with
  | panic =>
    exact absurd hf
      (fetchReceipts_no_panic lookup txs (fun h r hr => (hwf h r hr).2))
  | providerError => simp
  | discard rs => simp
  | revert rs => simp
  | ok rs =>
    cases rs with
    | nil => simp
    | cons r rest =>
      obtain ⟨h, hlk⟩ := collectReceipts_mem lookup txs (r :: rest)
        (fetchReceipts_ok_collect lookup txs _ hf) r (by simp)
      obtain ⟨b, hb⟩ := Option.ne_none_iff_exists'.mp (hwf h r hlk).1
      simp [hb]

/-- The bundle subscription loop never panics over well-formed receipt
views. -/
theorem waitForBundleGo_no_panic (txs : List TxHash) (maxBlock : Nat)
    (blocks : List (BlockHeader × ReceiptLookup))
    (hwf : ∀ p ∈ blocks, wfLookup p.2) :
    waitForBundleGo txs maxBlock blocks ≠ .panic := by
  induction blocks with
  | nil => simp [waitForBundleGo]
  | cons head rest ih =>
    obtain ⟨blk, lk⟩ := head
    cases hchk : checkInclusion lk txs with
    | some out =>
      simp only [waitForBundleGo, hchk]
      rintro rfl
      exact absurd hchk (checkInclusion_no_panic lk txs (hwf (blk, lk) (by simp)))
    | none =>
      simp only [waitForBundleGo, hchk]
      have hrest := ih (fun p hp => hwf p (List.mem_cons_of_mem _ hp))
      cases hn : blk.number with
      | some n =>
        simp only [hn]
        split_ifs
        · simp
        · exact hrest
      | none => simp only [hn]; exact hrest

/-- `wait_for_bundle` never panics over well-formed receipt views. -/
theorem waitForBundle_no_panic (txs : List TxHash) (maxBlock : Nat)
    (tr : BundleTrace) (hwf1 : wfLookup tr.initLookup)
    (hwf2 : ∀ blocks, tr.subscription = Except.ok blocks →
      ∀ p ∈ blocks, wfLookup p.2) :
    waitForBundle txs maxBlock tr ≠ .panic := by
  unfold waitForBundle
  cases hchk : checkInclusion tr.initLookup txs with
  | some out =>
    rintro rfl
    exact absurd hchk (checkInclusion_no_panic tr.initLookup txs hwf1)
  | none =>
    cases hsub : tr.subscription with
    | error e => simp
    | ok blocks =>
      simpa using waitForBundleGo_no_panic txs maxBlock blocks
        (hwf2 blocks hsub)

/-- The trailing status check panics only on a status-less receipt. -/
theorem inclusionOutcome_no_panic (res : TxOutcome TransactionReceipt)
    (hres : res ≠ .panic)
    (hok : ∀ receipt block, res = .ok receipt block → receipt.status ≠ none) :
    inclusionOutcome res ≠ .panic := by
  cases res with
  | ok receipt block =>
    obtain ⟨s, hs⟩ := Option.ne_none_iff_exists'.mp (hok receipt block rfl)
    simp only [inclusionOutcome, hs]
    split_ifs <;> simp
  | timeout h b => simp [inclusionOutcome]
  | providerError => simp [inclusionOutcome]
  | streamEnded => simp [inclusionOutcome]
  | panic => exact absurd rfl hres

/-- C9: the inclusion waiters and the receipt classifier are panic-free
exactly under the implicit precondition that everything the provider reports
carries `Some` block numbers and `Some` statuses; a receipt (or header)
with a `None` field reaches an `unwrap()` branch and the wait panics instead
of returning a typed error, as the four concrete runs show. -/
theorem C9_unwrap_preconditions :
    (∀ (α : Type) (blockOf : α → Option Nat) (hash maxBlock : Nat)
       (tr : TxTrace α),
       (∀ item, tr.firstFetch = Except.ok (some item) → blockOf item ≠ none) →
       (∀ blocks, tr.subscription = Except.ok blocks →
          ∀ p ∈ blocks, p.1.number ≠ none) →
       (waitForTx blockOf hash maxBlock tr).1 ≠ .panic) ∧
    (∀ (lookup : ReceiptLookup) (hs : List TxHash),
       (∀ h r, lookup h = Except.ok (some r) → r.status ≠ none) →
       fetchReceipts lookup hs ≠ .panic) ∧
    (∀ (txs : List TxHash) (maxBlock : Nat) (tr : BundleTrace),
       wfLookup tr.initLookup →
       (∀ blocks, tr.subscription = Except.ok blocks →
          ∀ p ∈ blocks, wfLookup p.2) →
       waitForBundle txs maxBlock tr ≠ .panic) ∧
    (∀ (hash : TxHash) (maxBlock : Option Nat)
       (currentBlock : Except Unit Nat) (tr : TxTrace TransactionReceipt),
       (∀ r, tr.firstFetch = Except.ok (some r) → wfReceiptView r) →
       (∀ blocks, tr.subscription = Except.ok blocks →
          ∀ p ∈ blocks, p.1.number ≠ none ∧
            ∀ r, p.2 = Except.ok (some r) → wfReceiptView r) →
       pendingTransactionInclusion hash maxBlock currentBlock tr ≠ .panic) ∧
    (waitForTx Transaction.blockNumber 1 10
       ⟨Except.ok (some ⟨none⟩), Except.ok []⟩ = (.panic, false)) ∧
    (fetchReceipts (fun _ => Except.ok (some ⟨some 3, none⟩)) [1]
       = .panic) ∧
    (waitForBundle [1] 10
       ⟨fun _ => Except.ok (some ⟨none, some 1⟩), Except.ok []⟩ = .panic) ∧
    (pendingTransactionInclusion 1 (some 10) (Except.ok 0)
       ⟨Except.ok (some ⟨some 3, none⟩), Except.ok []⟩ = .panic) := by
  refine ⟨fun α blockOf hash maxBlock tr h1 h2 =>
      waitForTx_no_panic blockOf hash maxBlock tr h1 h2,
    fun lookup hs h => fetchReceipts_no_panic lookup hs h,
    fun txs maxBlock tr h1 h2 => waitForBundle_no_panic txs maxBlock tr h1 h2,
    ?_, rfl, rfl, rfl, rfl⟩
  intro hash maxBlock currentBlock tr hfirst hblocks
  have hfirstBlock : ∀ r, tr.firstFetch = Except.ok (some r) →
      TransactionReceipt.blockNumber r ≠ none :=
    fun r hr => (hfirst r hr).1
  have hheaders : ∀ blocks, tr.subscription = Except.ok blocks →
      ∀ p ∈ blocks, p.1.number ≠ none :=
    fun blocks hsub p hp => (hblocks blocks hsub p hp).1
  have hstatus : ∀ (mb : Nat) (receipt : TransactionReceipt) (block : Nat),
      (waitForTx TransactionReceipt.blockNumber hash mb tr).1
        = .ok receipt block → receipt.status ≠ none := by
    intro mb receipt block hw
    rcases waitForTx_ok_src TransactionReceipt.blockNumber hash mb tr receipt
        block hw with hsrc | ⟨blocks, p, hsub, hp, hpf⟩
    · exact (hfirst receipt hsrc).2
    · exact (((hblocks blocks hsub p hp).2) receipt hpf).2
  have hcore : ∀ mb : Nat,
      inclusionOutcome (waitForTx TransactionReceipt.blockNumber hash mb tr).1
        ≠ .panic := fun mb =>
    inclusionOutcome_no_panic _
      (waitForTx_no_panic TransactionReceipt.blockNumber hash mb tr
        hfirstBlock hheaders)
      (fun receipt block h => hstatus mb receipt block h)
  cases maxBlock with
  | some b => exact hcore b
  | none =>
    cases currentBlock with
    | error e => simp [pendingTransactionInclusion, Except.map]
    | ok cb => exact hcore (cb + TX_WAIT_MAX_BLOCKS)

/-- Witness for C9: over a receipt view whose one receipt carries both
fields, the classifier does not panic. -/
theorem C9_unwrap_preconditions_witness :
    fetchReceipts (fun _ => Except.ok (some ⟨some 5, some 1⟩)) [1]
      ≠ .panic :=
  C9_unwrap_preconditions.2.1 (fun _ => Except.ok (some ⟨some 5, some 1⟩)) [1]
    (fun h r hr => by
      injection hr with hr
      injection hr with hr
      rw [← hr]
      simp)

/-- With an empty flattened hash list every poll collects zero receipts and
falls through. -/
theorem checkInclusion_nil (lookup : ReceiptLookup) :
    checkInclusion lookup [] = none := rfl

/-- With an empty flattened hash list the subscription loop can only end in
`streamEnded` or in a timeout carrying the empty list at a block strictly
above `max_block`. -/
theorem waitForBundleGo_nil_txs (maxBlock : Nat)
    (blocks : List (BlockHeader × ReceiptLookup)) :
    waitForBundleGo [] maxBlock blocks = .streamEnded ∨
    ∃ n, maxBlock < n ∧ waitForBundleGo [] maxBlock blocks = .timeout [] n := by
  induction blocks with
  | nil => left; rfl
  | cons head rest ih =>
    obtain ⟨blk, lk⟩ := head
    simp only [waitForBundleGo, checkInclusion_nil]
    cases hn : blk.number with
    | none => simpa only [hn] using ih
    | some n =>
      simp only [hn]
      by_cases hgt : n > maxBlock
      · right; exact ⟨n, hgt, by rw [if_pos hgt]⟩
      · rw [if_neg hgt]; exact ih

/-- With an empty flattened hash list the whole wait can only end in a
provider error, `streamEnded`, or an empty-list timeout strictly above
`max_block`. -/
theorem waitForBundle_nil_txs (maxBlock : Nat) (tr : BundleTrace) :
    waitForBundle [] maxBlock tr = .providerError ∨
    waitForBundle [] maxBlock tr = .streamEnded ∨
    ∃ n, maxBlock < n ∧ waitForBundle [] maxBlock tr = .timeout [] n := by
  simp only [waitForBundle, checkInclusion_nil]
  cases hsub : tr.subscription with
  | error e => left; rfl
  | ok blocks =>
    rcases waitForBundleGo_nil_txs maxBlock blocks with h | ⟨n, hn, h⟩
    · right; left; exact h
    · right; right; exact ⟨n, hn, h⟩

/-- C10: a bundle whose flattened hash sequence is empty can never resolve
successfully — every poll finds zero receipts, so `PendingBundle::inclusion`
never returns the success tuple, never discards, never reverts, never
panics, and any `BundleTimeout` it produces carries the empty hash list with
a block strictly above the effective `max_block`
(`max_block.unwrap_or(block)`); the only other endings are a propagated
provider error or the modelled finite stream running dry. -/
theorem C10_empty_bundle_never_succeeds (keccak : Bytes → TxHash)
    (request : SendBundleParams) (tr : BundleTrace)
    (hempty : hashes keccak request.body = []) :
    (∀ rs b, pendingBundleInclusion keccak request tr ≠ .ok rs b) ∧
    (∀ rs, pendingBundleInclusion keccak request tr ≠ .discard rs) ∧
    (∀ rs, pendingBundleInclusion keccak request tr ≠ .revert rs) ∧
    pendingBundleInclusion keccak request tr ≠ .panic ∧
    (∀ l n, pendingBundleInclusion keccak request tr = .timeout l n →
      l = [] ∧ request.inclusion.maxBlock.getD request.inclusion.block < n) := by
  have hpb : pendingBundleInclusion keccak request tr
      = waitForBundle []
          (request.inclusion.maxBlock.getD request.inclusion.block) tr := by
    rw [pendingBundleInclusion, hempty]
  rw [hpb]
  rcases waitForBundle_nil_txs
      (request.inclusion.maxBlock.getD request.inclusion.block) tr with
    h | h | ⟨n, hn, h⟩ <;> rw [h]
  · exact ⟨by simp, by simp, by simp, by simp, by simp⟩
  · exact ⟨by simp, by simp, by simp, by simp, by simp⟩
  · refine ⟨by simp, by simp, by simp, by simp, ?_⟩
    intro l n' heq
    injection heq with h1 h2
    exact ⟨h1.symm, h2 ▸ hn⟩

/-- Witness for C10: an empty-bodied bundle observed past its target block
does not panic (it times out or keeps waiting). -/
theorem C10_empty_bundle_never_succeeds_witness :
    pendingBundleInclusion (fun _ => 0) ⟨⟨5, none⟩, []⟩
      ⟨noReceipts, Except.ok [(⟨some 6⟩, noReceipts)]⟩ ≠ .panic :=
  (C10_empty_bundle_never_succeeds (fun _ => 0) ⟨⟨5, none⟩, []⟩
      ⟨noReceipts, Except.ok [(⟨some 6⟩, noReceipts)]⟩
      (by simp [hashes_eq_flatten, flattenBodies])).2.2.2.1

end MevShare
